import Mathlib

/-!
Shallow embedding of `src/app.py` (INQUIRO PDF), a Streamlit RAG pipeline.

The program's externally-effectful collaborators (PyPDFLoader, the Qdrant
client, `Qdrant.from_documents`, the Ollama-backed `RetrievalQA` chain,
`os.getenv`) are modelled as oracle parameters: each oracle field records the
outcome the external call would have produced, and the embedded functions
reproduce the Python control flow (try/except/finally, early returns, session
state updates) over those outcomes.  A Python exception that is NOT caught by
the function under study is modelled by the `Except.error` constructor of the
function's result; a caught exception is handled inside and never surfaces.
-/

namespace InquiroPdf

/-- One extracted text unit: a page produced by `PyPDFLoader.load`, carrying
text content together with source-file and page metadata. -/
structure TextUnit where
  sourceFile : String
  page : Nat
  content : String
deriving DecidableEq, Repr

/-- The outcome of the external steps taken for one uploaded file inside the
loop of `process_uploaded_files`:
`uploaded_file.read()` (may raise), `tmp_file.write(...)` (may raise), and
`PyPDFLoader(tmp_path).load()` (may raise, caught by the per-file `except`). -/
inductive FileOutcome where
  /-- `uploaded_file.read()` raises; outside any `try`, so it propagates. -/
  | readRaises (e : String)
  /-- `tmp_file.write(...)` raises; outside any `try`, so it propagates. -/
  | writeRaises (e : String)
  /-- `loader.load()` raises; caught by the per-file `except` clause. -/
  | loaderRaises (e : String)
  /-- `loader.load()` returns this list of pages, in page order. -/
  | loaded (pages : List TextUnit)
deriving DecidableEq, Repr

/-- An uploaded file: its `.name` attribute plus the oracle outcome of the
external calls made while staging and loading it. -/
structure UploadedFile where
  name : String
  outcome : FileOutcome
deriving DecidableEq, Repr

/-- A UI message emitted through `st.success` / `st.error`. -/
inductive UiMsg where
  | success (text : String)
  | error (text : String)
deriving DecidableEq, Repr

/-- What happened while processing one file of the batch: the pages appended
to `text`, the message shown, and the life cycle of the staging temp file. -/
structure FileTrace where
  pagesAdded : List TextUnit
  message : UiMsg
  /-- `tempfile.NamedTemporaryFile(delete=False, ...)` created the file. -/
  tmpCreated : Bool
  /-- `os.unlink(tmp_path)` in the `finally` block removed it. -/
  tmpDeleted : Bool
deriving DecidableEq, Repr

/-- Distance metric passed to `qdrant_client.create_collection`
(`qdrant_client.http.models.Distance`). -/
inductive Distance where
  | cosine
  | euclid
  | dot
deriving DecidableEq, Repr

/-- One operation issued against the Qdrant backend, with its outcome. -/
inductive QdrantOp where
  /-- `qdrant_client.delete_collection(name)`; wrapped in `try/except: pass`. -/
  | deleteAttempt (collection : String) (succeeded : Bool)
  /-- `qdrant_client.create_collection(...)` with the given vector size and
  distance. -/
  | createAttempt (collection : String) (dim : Nat) (dist : Distance)
      (succeeded : Bool)
  /-- `Qdrant.from_documents(documents=..., collection_name=...)`: embeds and
  bulk-inserts the documents. -/
  | insertAttempt (collection : String) (docs : List TextUnit) (succeeded : Bool)
deriving DecidableEq, Repr

/-- The vector store returned by `Qdrant.from_documents` on success: a handle
on the named collection holding exactly the documents that were inserted. -/
structure VectorStore where
  collectionName : String
  documents : List TextUnit
deriving DecidableEq, Repr

/-- Oracle for the batch-level external calls of `process_uploaded_files`. -/
structure IngestOracle where
  /-- `initialize_components()` returned a usable
  `(embedding_model, qdrant_client)` pair; on `false` it printed its own
  `st.error` and returned `(None, None)`. -/
  componentsOk : Bool
  /-- `int(time.time())` at the moment the collection name is built. -/
  timestamp : Nat
  /-- Whether `qdrant_client.delete_collection` succeeded (its failure is
  swallowed by the inner bare `except`). -/
  deleteSucceeds : Bool
  /-- `some e` iff `qdrant_client.create_collection` raises `e`. -/
  createCollectionFails : Option String
  /-- `some e` iff `Qdrant.from_documents` raises `e`. -/
  fromDocumentsFails : Option String
deriving DecidableEq, Repr

/-- `collection_name = f"RAG_PDF_{int(time.time())}"` (app.py line 163). -/
def mkCollectionName (t : Nat) : String :=
  "RAG_PDF_" ++ toString t

/-- The per-file body of the loop in `process_uploaded_files`
(app.py lines 139-152): stage the bytes to a temp file, load it with
`PyPDFLoader`, catch loader errors per file, unlink the temp file in
`finally`.  An uncaught exception (read/write of the staging file) aborts the
whole function and leaves the temp file behind. -/
def processFile (f : UploadedFile) : Except String FileTrace :=
  match f.outcome with
  | .readRaises e => .error e
  | .writeRaises e => .error e
  | .loaderRaises e =>
      .ok { pagesAdded := []
            message := .error ("Error processing " ++ f.name ++ ": " ++ e)
            tmpCreated := true
            tmpDeleted := true }
  | .loaded pages =>
      .ok { pagesAdded := pages
            message := .success ("Processed: " ++ f.name)
            tmpCreated := true
            tmpDeleted := true }

/-- The loop `for uploaded_file in uploaded_files` accumulating `text`
(app.py lines 138-152).  Returns the accumulated pages in file order and the
per-file traces; an uncaught per-file exception aborts the remainder. -/
def loadLoop : List UploadedFile → Except String (List TextUnit × List FileTrace)
  | [] => .ok ([], [])
  | f :: fs =>
      match processFile f with
      | .error e => .error e
      | .ok tr =>
          match loadLoop fs with
          | .error e => .error e
          | .ok (text, trs) => .ok (tr.pagesAdded ++ text, tr :: trs)

/-- `true` iff this file's external calls raise no exception that the code
fails to catch (only `loader.load()` is guarded by a `try/except`). -/
def noUncaught (f : UploadedFile) : Bool :=
  match f.outcome with
  | .readRaises _ => false
  | .writeRaises _ => false
  | .loaderRaises _ => true
  | .loaded _ => true

/-- The pages a file contributes to `text`: its loaded pages, or none when
the loader raised (the per-file `except` skips `text.extend`). -/
def pagesOf (f : UploadedFile) : List TextUnit :=
  match f.outcome with
  | .loaded pages => pages
  | _ => []

/-- All text units extracted from the batch, in file order then page order. -/
def extractedText (files : List UploadedFile) : List TextUnit :=
  files.flatMap pagesOf

/-- The trace `processFile` produces for a file with no uncaught exception. -/
def traceOf (f : UploadedFile) : FileTrace :=
  match f.outcome with
  | .loaderRaises e =>
      { pagesAdded := []
        message := .error ("Error processing " ++ f.name ++ ": " ++ e)
        tmpCreated := true
        tmpDeleted := true }
  | .loaded pages =>
      { pagesAdded := pages
        message := .success ("Processed: " ++ f.name)
        tmpCreated := true
        tmpDeleted := true }
  | .readRaises _ => { pagesAdded := [], message := .error "", tmpCreated := true, tmpDeleted := false }
  | .writeRaises _ => { pagesAdded := [], message := .error "", tmpCreated := true, tmpDeleted := false }

/-- The result of a completed `process_uploaded_files` call: the returned
value (`some` store or `None`), the Qdrant operations issued after the load
loop, the batch-level UI messages, and the per-file traces. -/
structure IngestResult where
  store : Option VectorStore
  ops : List QdrantOp
  messages : List UiMsg
  fileTraces : List FileTrace
deriving DecidableEq, Repr

/-- The tail of `process_uploaded_files` after the load loop (app.py lines
154-187): the empty-text early return, `initialize_components`, and the outer
`try` that names, deletes (best-effort), creates and populates the
collection, catching any exception of those steps. -/
def processAfterLoad (text : List TextUnit) (trs : List FileTrace)
    (o : IngestOracle) : IngestResult :=
  if text.isEmpty then
    { store := none, ops := []
      messages := [.error "No text extracted from PDFs"]
      fileTraces := trs }
  else if ¬ o.componentsOk then
    { store := none, ops := []
      messages := [.error "Error initializing components"]
      fileTraces := trs }
  else
    let name := mkCollectionName o.timestamp
    let delOp := QdrantOp.deleteAttempt name o.deleteSucceeds
    match o.createCollectionFails with
    | some e =>
      { store := none
        ops := [delOp, .createAttempt name 384 .cosine false]
        messages := [.error ("Error creating vector store: " ++ e)]
        fileTraces := trs }
    | none =>
      match o.fromDocumentsFails with
      | some e =>
        { store := none
          ops := [delOp, .createAttempt name 384 .cosine true,
                  .insertAttempt name text false]
          messages := [.error ("Error creating vector store: " ++ e)]
          fileTraces := trs }
      | none =>
        { store := some { collectionName := name, documents := text }
          ops := [delOp, .createAttempt name 384 .cosine true,
                  .insertAttempt name text true]
          messages := [.success "Successfully created vector store"]
          fileTraces := trs }

/-- `process_uploaded_files` (app.py lines 132-187).  `Except.error` models an
exception escaping the function (possible only from the staging read/write,
which no `try` guards); `.ok` carries the returned value and observable
effects.  Every step after the load loop is guarded by `try/except`, so once
the loop completes the function always returns. -/
def process_uploaded_files (files : List UploadedFile) (o : IngestOracle) :
    Except String IngestResult :=
  if files.isEmpty then
    .ok { store := none, ops := [], messages := [], fileTraces := [] }
  else
    match loadLoop files with
    | .error e => .error e
    | .ok (text, trs) => .ok (processAfterLoad text trs o)

/-- Oracle for the external calls inside `get_rag_response`: constructing the
Ollama LLM, the retriever, the `RetrievalQA` chain and running
`rag_chain(query)` are all inside one `try`; `.ok (r, srcs)` is a completed
chain call with `response["result"] = r` and source documents `srcs`,
`.error e` any exception raised by those steps. -/
structure QueryOracle where
  chainResult : Except String (String × List TextUnit)
deriving Repr

/-- The observable outcome of one `get_rag_response` call (app.py lines
189-208): the LLM model name and retriever cut-off it wired up, the returned
pair (`(result, sources)` on success, `(None, [])` on any exception), and the
`st.error` message shown on failure. -/
structure RagResponse where
  llmModel : String
  k : Nat
  response : Option String
  sources : List TextUnit
  errorMsg : Option String
deriving DecidableEq, Repr

/-- `get_rag_response(query, vector_store)` (app.py lines 189-208).  The whole
body is inside `try/except`, so the call always returns a pair.  `getenv`
models `os.environ`; the body makes no `os.getenv` call, and the retriever is
built with the literal `search_kwargs={"k": 3}`. -/
def get_rag_response (query : String) (vector_store : VectorStore)
    (getenv : String → Option String) (o : QueryOracle) : RagResponse :=
  match o.chainResult with
  | .ok (r, srcs) =>
      { llmModel := "llama3.2:3b", k := 3
        response := some r, sources := srcs, errorMsg := none }
  | .error e =>
      { llmModel := "llama3.2:3b", k := 3
        response := none, sources := []
        errorMsg := some ("Error generating response: " ++ e) }

/-- Decimal parsing of an environment value, used only by the spec-side
definition below. -/
def parseNatDigits (cs : List Char) : Option Nat :=
  if cs ≠ [] ∧ cs.all Char.isDigit then
    some (cs.foldl (fun n c => n * 10 + (c.toNat - 48)) 0)
  else none

/-- Follows the spec's words (not the source), for comparison with the code:
the retrieval cut-off read from the recognized configuration option
`RETRIEVAL_K`, defaulting to 3 when the option is absent or unparsable. -/
def specRetrievalK (getenv : String → Option String) : Nat :=
  match getenv "RETRIEVAL_K" with
  | some s => (parseNatDigits s.data).getD 3
  | none => 3

/-- The Streamlit session state: `st.session_state.vector_store`,
`st.session_state.chat_history` (a list of `(role, message)` pairs) and
`st.session_state.documents_loaded`. -/
structure SessionState where
  vector_store : Option VectorStore
  chat_history : List (String × String)
  documents_loaded : Bool
deriving DecidableEq, Repr

/-- The "Process Documents" branch of `main` (app.py lines 224-228): run
`process_uploaded_files`; only a truthy return value (a vector store object)
updates `vector_store` and `documents_loaded`. -/
def mainProcessStep (s : SessionState) (files : List UploadedFile)
    (o : IngestOracle) : Except String SessionState :=
  match process_uploaded_files files o with
  | .error e => .error e
  | .ok r =>
      match r.store with
      | some vs =>
          .ok { s with vector_store := some vs, documents_loaded := true }
      | none => .ok s

/-- The "Ask" branch of `main` (app.py lines 265-274), entered with a
non-empty `query`: if a vector store is present, append the user turn, run
`get_rag_response`, and append an assistant turn only when the response is
truthy (`if response:` — neither `None` nor the empty string). -/
def mainQueryStep (s : SessionState) (query : String)
    (getenv : String → Option String) (o : QueryOracle) : SessionState :=
  match s.vector_store with
  | none => s
  | some vs =>
      let s1 := { s with chat_history := s.chat_history ++ [("user", query)] }
      match (get_rag_response query vs getenv o).response with
      | none => s1
      | some r =>
          if r = "" then s1
          else { s1 with chat_history := s1.chat_history ++ [("assistant", r)] }

/-- The collection name of the store returned by a completed
`process_uploaded_files` call, when one was returned. -/
def ingestedName (files : List UploadedFile) (o : IngestOracle) : Option String :=
  match process_uploaded_files files o with
  | .ok r => r.store.map VectorStore.collectionName
  | .error _ => none

/-! Concrete fixtures used by witnesses and counterexamples. -/

/-- A one-page text unit from a small PDF. -/
def pageA : TextUnit :=
  { sourceFile := "a.pdf", page := 0, content := "The sky is blue." }

/-- A one-page text unit from a second PDF. -/
def pageB : TextUnit :=
  { sourceFile := "b.pdf", page := 0, content := "Water is wet." }

/-- A batch of one valid single-page PDF. -/
def batchA : List UploadedFile :=
  [{ name := "a.pdf", outcome := .loaded [pageA] }]

/-- A different batch of one valid single-page PDF. -/
def batchB : List UploadedFile :=
  [{ name := "b.pdf", outcome := .loaded [pageB] }]

/-- A batch whose only file fails at `uploaded_file.read()`. -/
def badBatch : List UploadedFile :=
  [{ name := "bad.pdf", outcome := .readRaises "disk read failed" }]

/-- An ingestion oracle where every external call succeeds, at time `t`. -/
def goodOracle (t : Nat) : IngestOracle :=
  { componentsOk := true, timestamp := t, deleteSucceeds := true
    createCollectionFails := none, fromDocumentsFails := none }

/-- A vector store as produced by ingesting `batchA` at time 1000. -/
def storeA : VectorStore :=
  { collectionName := "RAG_PDF_1000", documents := [pageA] }

/-- An environment that sets `RETRIEVAL_K` to `"5"`. -/
def envK5 : String → Option String :=
  fun n => if n = "RETRIEVAL_K" then some "5" else none

/-- An empty environment. -/
def emptyEnv : String → Option String :=
  fun _ => none

/-- A query oracle whose chain call completes normally. -/
def okChain : QueryOracle :=
  { chainResult := .ok ("An answer.", [pageA]) }

/-- A query oracle whose chain call raises. -/
def failChain : QueryOracle :=
  { chainResult := .error "ollama unavailable" }

/-- A session in the Ready state, holding `storeA` and some history. -/
def readySession : SessionState :=
  { vector_store := some storeA
    chat_history := [("user", "hi"), ("assistant", "hello")]
    documents_loaded := true }

/-- An ingestion oracle where `initialize_components` fails, at time 1000. -/
def downOracle : IngestOracle :=
  { componentsOk := false, timestamp := 1000, deleteSucceeds := true
    createCollectionFails := none, fromDocumentsFails := none }

/-- The vector store produced by ingesting `batchA ++ batchB` at time 1000. -/
def storeAB : VectorStore :=
  { collectionName := "RAG_PDF_1000", documents := [pageA, pageB] }

/-- The full ingest result for `batchA ++ batchB` at time 1000. -/
def resultAB : IngestResult :=
  processAfterLoad (extractedText (batchA ++ batchB))
    ((batchA ++ batchB).map traceOf) (goodOracle 1000)

/-- A corrupt uploaded file whose loader raises. -/
def corruptFile : UploadedFile :=
  { name := "c.pdf", outcome := .loaderRaises "corrupt" }

/-- The ingest result for `batchA` at time 1000. -/
def resultA1000 : IngestResult :=
  processAfterLoad (extractedText batchA) (batchA.map traceOf) (goodOracle 1000)

/-- The ingest result for `batchB` at time 1001. -/
def resultB1001 : IngestResult :=
  processAfterLoad (extractedText batchB) (batchB.map traceOf) (goodOracle 1001)

/-- The vector store produced by ingesting `batchB` at time 1001. -/
def storeB1001 : VectorStore :=
  { collectionName := "RAG_PDF_1001", documents := [pageB] }

/-! Structural lemmas about the load loop and `process_uploaded_files`. -/

/-- A successful load loop returns exactly the extracted text units (file
order, then page order) and the per-file traces. -/
lemma loadLoop_ok_val :
    ∀ (files : List UploadedFile) (text : List TextUnit) (trs : List FileTrace),
      loadLoop files = .ok (text, trs) →
      text = extractedText files ∧ trs = files.map traceOf := by
  intro files
  induction files with
  | nil =>
      intro text trs h
      simp only [loadLoop, Except.ok.injEq, Prod.mk.injEq] at h
      simp [extractedText, ← h.1, ← h.2]
  | cons f fs ih =>
      intro text trs h
      simp only [loadLoop] at h
      cases hf : processFile f with
      | error e => rw [hf] at h; exact absurd h (by simp)
      | ok tr =>
          rw [hf] at h
          cases hl : loadLoop fs with
          | error e => rw [hl] at h; exact absurd h (by simp)
          | ok p =>
              obtain ⟨t2, trs2⟩ := p
              rw [hl] at h
              simp only [Except.ok.injEq, Prod.mk.injEq] at h
              obtain ⟨ht, htr⟩ := h
              obtain ⟨ht2, htr2⟩ := ih t2 trs2 hl
              have hcases : tr = traceOf f ∧ tr.pagesAdded = pagesOf f := by
                cases f with
                | mk nm oc =>
                    cases oc with
                    | readRaises e => simp [processFile] at hf
                    | writeRaises e => simp [processFile] at hf
                    | loaderRaises e =>
                        simp only [processFile, Except.ok.injEq] at hf
                        subst hf; exact ⟨rfl, rfl⟩
                    | loaded pages =>
                        simp only [processFile, Except.ok.injEq] at hf
                        subst hf; exact ⟨rfl, rfl⟩
              constructor
              · rw [← ht, ht2, hcases.2]
                simp [extractedText]
              · rw [← htr, htr2, hcases.1]
                simp

/-- When no file has an uncaught staging exception, the load loop completes
and returns the extracted text with the per-file traces. -/
lemma loadLoop_ok (files : List UploadedFile)
    (hnu : ∀ f ∈ files, noUncaught f = true) :
    loadLoop files = .ok (extractedText files, files.map traceOf) := by
  induction files with
  | nil => simp [loadLoop, extractedText]
  | cons f fs ih =>
      have hf : processFile f = .ok (traceOf f) := by
        have := hnu f (by simp)
        cases f with
        | mk nm oc =>
            cases oc with
            | readRaises e => simp [noUncaught] at this
            | writeRaises e => simp [noUncaught] at this
            | loaderRaises e => rfl
            | loaded pages => rfl
      have hfs := ih (fun g hg => hnu g (by simp [hg]))
      have hpages : (traceOf f).pagesAdded = pagesOf f := by
        cases f with
        | mk nm oc => cases oc <;> rfl
      simp [loadLoop, hf, hfs, hpages, extractedText]

/-- With no uncaught staging exception, `process_uploaded_files` evaluates to
the post-loop result on the extracted text. -/
lemma process_eval (files : List UploadedFile) (o : IngestOracle)
    (hne : files ≠ []) (hnu : ∀ f ∈ files, noUncaught f = true) :
    process_uploaded_files files o =
      .ok (processAfterLoad (extractedText files) (files.map traceOf) o) := by
  unfold process_uploaded_files
  rw [if_neg (by simpa using hne), loadLoop_ok files hnu]

/-- A store is returned iff every stage succeeded; its contents are the
extracted text and its name is built from the timestamp. -/
lemma processAfterLoad_store_some (text : List TextUnit) (trs : List FileTrace)
    (o : IngestOracle) (vs : VectorStore)
    (hs : (processAfterLoad text trs o).store = some vs) :
    vs = { collectionName := mkCollectionName o.timestamp, documents := text } ∧
    text ≠ [] ∧ o.componentsOk = true ∧
    o.createCollectionFails = none ∧ o.fromDocumentsFails = none := by
  unfold processAfterLoad at hs
  by_cases ht : text.isEmpty
  · rw [if_pos ht] at hs; simp at hs
  · rw [if_neg ht] at hs
    by_cases hc : o.componentsOk
    · rw [if_neg (by simpa using hc)] at hs
      cases hcf : o.createCollectionFails with
      | some e => rw [hcf] at hs; simp at hs
      | none =>
          rw [hcf] at hs
          cases hff : o.fromDocumentsFails with
          | some e => rw [hff] at hs; simp at hs
          | none =>
              rw [hff] at hs
              simp only [Option.some.injEq] at hs
              exact ⟨hs.symm, by simpa using ht, by simpa using hc, rfl, rfl⟩
    · rw [if_pos (by simpa using hc)] at hs; simp at hs

/-- If any post-loop stage fails, no store is returned. -/
lemma processAfterLoad_store_none (text : List TextUnit) (trs : List FileTrace)
    (o : IngestOracle)
    (h : text = [] ∨ o.componentsOk = false ∨
         o.createCollectionFails.isSome ∨ o.fromDocumentsFails.isSome) :
    (processAfterLoad text trs o).store = none := by
  cases hs : (processAfterLoad text trs o).store with
  | none => rfl
  | some vs =>
      obtain ⟨_, htne, hc, hcf, hff⟩ := processAfterLoad_store_some text trs o vs hs
      rcases h with h | h | h | h
      · exact absurd h htne
      · rw [hc] at h; exact absurd h (by simp)
      · rw [hcf] at h; exact absurd h (by simp)
      · rw [hff] at h; exact absurd h (by simp)

/-! Injectivity of the decimal rendering `Nat.repr`, hence of
`mkCollectionName` in the timestamp. -/

/-- `Nat.digitChar` is injective on digits below 10. -/
lemma digitChar_injOn :
    ∀ a < 10, ∀ b < 10, Nat.digitChar a = Nat.digitChar b → a = b := by
  decide

/-- Mapping `Nat.digitChar` over lists of digits below 10 is injective. -/
lemma map_digitChar_inj :
    ∀ (l1 l2 : List Nat), (∀ x ∈ l1, x < 10) → (∀ x ∈ l2, x < 10) →
      l1.map Nat.digitChar = l2.map Nat.digitChar → l1 = l2 := by
  intro l1
  induction l1 with
  | nil => intro l2 _ _ h; cases l2 <;> simp_all
  | cons a t ih =>
      intro l2 h1 h2 h
      cases l2 with
      | nil => simp at h
      | cons b t2 =>
          simp only [List.map_cons, List.cons.injEq] at h
          have ha : a = b :=
            digitChar_injOn a (h1 a (by simp)) b (h2 b (by simp)) h.1
          have ht : t = t2 :=
            ih t2 (fun x hx => h1 x (by simp [hx]))
              (fun x hx => h2 x (by simp [hx])) h.2
          rw [ha, ht]

/-- With enough fuel, `Nat.toDigitsCore` renders exactly the base-`b` digits
(most significant first) in front of the accumulator. -/
lemma toDigitsCore_eq (b : Nat) (hb : 1 < b) :
    ∀ (fuel n : Nat) (ds : List Char), 0 < n → n < b ^ fuel →
      Nat.toDigitsCore b fuel n ds =
        ((Nat.digits b n).map Nat.digitChar).reverse ++ ds := by
  intro fuel
  induction fuel with
  | zero =>
      intro n ds hn hlt
      rw [pow_zero] at hlt
      omega
  | succ fuel ih =>
      intro n ds hn hlt
      have hbpos : 0 < b := by omega
      have step : Nat.toDigitsCore b (fuel + 1) n ds =
          if n / b = 0 then Nat.digitChar (n % b) :: ds
          else Nat.toDigitsCore b fuel (n / b) (Nat.digitChar (n % b) :: ds) :=
        rfl
      by_cases hdiv : n / b = 0
      · rw [step, if_pos hdiv, Nat.digits_def' hb hn, hdiv]
        simp
      · rw [step, if_neg hdiv]
        have hn' : 0 < n / b := Nat.pos_of_ne_zero hdiv
        have hlt' : n / b < b ^ fuel := by
          rw [Nat.div_lt_iff_lt_mul hbpos, ← pow_succ]
          exact hlt
        rw [ih (n / b) (Nat.digitChar (n % b) :: ds) hn' hlt',
          Nat.digits_def' hb hn]
        simp

/-- For positive `n`, `Nat.toDigits 10 n` is the decimal digit characters,
most significant first. -/
lemma toDigits_eq_of_pos (n : Nat) (hn : 0 < n) :
    Nat.toDigits 10 n = ((Nat.digits 10 n).map Nat.digitChar).reverse := by
  have h1 : n < 2 ^ n := Nat.lt_two_pow n
  have h2 : (2 : Nat) ^ n ≤ 10 ^ n := Nat.pow_le_pow_left (by omega) n
  have h3 : (10 : Nat) ^ n ≤ 10 ^ (n + 1) :=
    Nat.pow_le_pow_right (by omega) (Nat.le_succ n)
  have hbound : n < 10 ^ (n + 1) := by omega
  have := toDigitsCore_eq 10 (by omega) (n + 1) n [] hn hbound
  simpa [Nat.toDigits] using this

/-- Decimal digit lists `['0']` only arise from 0's rendering: a positive
number's digit characters cannot be `['0']`. -/
lemma toDigits_ne_zero_char (n : Nat) (hn : 0 < n) :
    Nat.toDigits 10 n ≠ ['0'] := by
  intro h
  rw [toDigits_eq_of_pos n hn] at h
  have h' : (Nat.digits 10 n).map Nat.digitChar = ['0'] := by
    have := congrArg List.reverse h
    simpa using this
  cases hd : Nat.digits 10 n with
  | nil => rw [hd] at h'; simp at h'
  | cons d tl =>
      rw [hd] at h'
      simp only [List.map_cons, List.cons.injEq, List.map_eq_nil_iff] at h'
      have hdlt : d < 10 :=
        Nat.digits_lt_base (by omega) (by rw [hd]; exact List.mem_cons_self d tl)
      have hd0 : d = 0 := digitChar_injOn d hdlt 0 (by omega) (by simpa using h'.1)
      have hofd := Nat.ofDigits_digits 10 n
      rw [hd, h'.2, hd0] at hofd
      rw [Nat.ofDigits_cons, Nat.ofDigits_nil] at hofd
      omega

/-- `Nat.repr` is injective: distinct naturals have distinct decimal
renderings. -/
lemma nat_repr_injective : Function.Injective Nat.repr := by
  intro m n h
  have hld : Nat.toDigits 10 m = Nat.toDigits 10 n := by
    have hda := congrArg String.data h
    simpa [Nat.repr, List.asString] using hda
  rcases Nat.eq_zero_or_pos m with hm | hm
  · rcases Nat.eq_zero_or_pos n with hn | hn
    · rw [hm, hn]
    · subst hm
      exact absurd hld.symm (toDigits_ne_zero_char n hn)
  · rcases Nat.eq_zero_or_pos n with hn | hn
    · subst hn
      exact absurd hld (toDigits_ne_zero_char m hm)
    · rw [toDigits_eq_of_pos m hm, toDigits_eq_of_pos n hn] at hld
      have hmap : (Nat.digits 10 m).map Nat.digitChar =
          (Nat.digits 10 n).map Nat.digitChar := by
        have := congrArg List.reverse hld
        simpa using this
      have hdig : Nat.digits 10 m = Nat.digits 10 n :=
        map_digitChar_inj _ _
          (fun x hx => Nat.digits_lt_base (by omega) hx)
          (fun x hx => Nat.digits_lt_base (by omega) hx) hmap
      have h1 := Nat.ofDigits_digits 10 m
      have h2 := Nat.ofDigits_digits 10 n
      rw [← h1, ← h2, hdig]

/-- `mkCollectionName` is injective in the integer timestamp. -/
lemma mkCollectionName_inj {t1 t2 : Nat}
    (h : mkCollectionName t1 = mkCollectionName t2) : t1 = t2 := by
  unfold mkCollectionName at h
  have hd := congrArg String.data h
  simp only [String.data_append] at hd
  have hrepr : Nat.repr t1 = Nat.repr t2 :=
    String.ext (List.append_cancel_left hd)
  exact nat_repr_injective hrepr

/-- The number of extracted text units is the sum of the per-file page
counts. -/
lemma length_extractedText (files : List UploadedFile) :
    (extractedText files).length =
      (files.map (fun f => (pagesOf f).length)).sum := by
  induction files with
  | nil => rfl
  | cons f fs ih =>
      simp only [extractedText, List.flatMap_cons, List.length_append,
        List.map_cons, List.sum_cons]
      rw [← ih]
      rfl

/-- A returned store's name comes from the timestamp and its contents are the
extracted text. -/
lemma process_ok_store (files : List UploadedFile) (o : IngestOracle)
    (r : IngestResult) (vs : VectorStore)
    (h : process_uploaded_files files o = .ok r) (hs : r.store = some vs) :
    vs.collectionName = mkCollectionName o.timestamp ∧
    vs.documents = extractedText files := by
  by_cases hne : files = []
  · subst hne
    have hp : process_uploaded_files [] o =
        .ok { store := none, ops := [], messages := [], fileTraces := [] } := by
      simp [process_uploaded_files]
    rw [hp] at h
    simp only [Except.ok.injEq] at h
    rw [← h] at hs
    simp at hs
  · unfold process_uploaded_files at h
    rw [if_neg (by simpa using hne)] at h
    cases hl : loadLoop files with
    | error e => rw [hl] at h; simp at h
    | ok p =>
        obtain ⟨text, trs⟩ := p
        rw [hl] at h
        simp only [Except.ok.injEq] at h
        obtain ⟨htext, -⟩ := loadLoop_ok_val files text trs hl
        rw [← h] at hs
        obtain ⟨hvs, -, -, -, -⟩ := processAfterLoad_store_some _ _ _ _ hs
        rw [hvs, htext]
        exact ⟨rfl, rfl⟩

/-- The delete outcome influences only the recorded operation: the returned
value and messages of the post-loop stage are the same whether the
best-effort deletion succeeded or failed. -/
lemma processAfterLoad_delete_irrelevant (text : List TextUnit)
    (trs : List FileTrace) (o : IngestOracle) (b : Bool) :
    (processAfterLoad text trs { o with deleteSucceeds := b }).store =
      (processAfterLoad text trs o).store ∧
    (processAfterLoad text trs { o with deleteSucceeds := b }).messages =
      (processAfterLoad text trs o).messages := by
  unfold processAfterLoad
  by_cases ht : text.isEmpty <;> by_cases hc : o.componentsOk <;>
    cases hcf : o.createCollectionFails <;>
    cases hff : o.fromDocumentsFails <;>
    simp [ht, hc, hcf, hff]

/-- Whenever the post-loop stage returns no store, it has shown an error
message. -/
lemma processAfterLoad_none_msg (text : List TextUnit) (trs : List FileTrace)
    (o : IngestOracle) (h : (processAfterLoad text trs o).store = none) :
    ∃ m, UiMsg.error m ∈ (processAfterLoad text trs o).messages := by
  unfold processAfterLoad at h ⊢
  by_cases ht : text.isEmpty <;> by_cases hc : o.componentsOk <;>
    cases hcf : o.createCollectionFails <;>
    cases hff : o.fromDocumentsFails <;>
    simp [ht, hc, hcf, hff] at h ⊢

/-! Claim theorems. -/

/-- C1: if ingestion extracts zero TextUnits, or component initialization,
collection creation or population fails after extraction, then
`process_uploaded_files` returns `None`, the session state is left untouched
by `main`, and no handle with zero successfully inserted entries is ever
returned or installed. -/
theorem C1_no_zero_entry_handle (files : List UploadedFile) (o : IngestOracle)
    (s : SessionState) (hnu : ∀ f ∈ files, noUncaught f = true) :
    ((extractedText files = [] ∨ o.componentsOk = false ∨
      o.createCollectionFails.isSome ∨ o.fromDocumentsFails.isSome) →
      ∃ r, process_uploaded_files files o = .ok r ∧ r.store = none ∧
        mainProcessStep s files o = .ok s) ∧
    (∀ r vs, process_uploaded_files files o = .ok r → r.store = some vs →
      vs.documents ≠ []) := by
  constructor
  · intro herr
    by_cases hne : files = []
    · subst hne
      have hp : process_uploaded_files [] o =
          .ok { store := none, ops := [], messages := [], fileTraces := [] } := by
        simp [process_uploaded_files]
      refine ⟨_, hp, rfl, ?_⟩
      simp [mainProcessStep, hp]
    · have hp := process_eval files o hne hnu
      have hnone : (processAfterLoad (extractedText files)
          (files.map traceOf) o).store = none :=
        processAfterLoad_store_none _ _ _ herr
      refine ⟨_, hp, hnone, ?_⟩
      simp [mainProcessStep, hp, hnone]
  · intro r vs h hs
    by_cases hne : files = []
    · subst hne
      have hp : process_uploaded_files [] o =
          .ok { store := none, ops := [], messages := [], fileTraces := [] } := by
        simp [process_uploaded_files]
      rw [hp] at h
      simp only [Except.ok.injEq] at h
      rw [← h] at hs
      simp at hs
    · unfold process_uploaded_files at h
      rw [if_neg (by simpa using hne)] at h
      cases hl : loadLoop files with
      | error e => rw [hl] at h; simp at h
      | ok p =>
          obtain ⟨text, trs⟩ := p
          rw [hl] at h
          simp only [Except.ok.injEq] at h
          obtain ⟨htext, -⟩ := loadLoop_ok_val files text trs hl
          rw [← h] at hs
          obtain ⟨hvs, htne, -, -, -⟩ := processAfterLoad_store_some _ _ _ _ hs
          rw [hvs]
          simpa [htext] using htne

/-- C1 witness: a failed component initialization on a valid one-file batch
returns `None` and leaves the Ready session untouched. -/
theorem C1_no_zero_entry_handle_witness :
    (∀ f ∈ batchA, noUncaught f = true) ∧
    (∃ r, process_uploaded_files batchA downOracle = .ok r ∧ r.store = none ∧
      mainProcessStep readySession batchA downOracle = .ok readySession) :=
  ⟨by decide,
    (C1_no_zero_entry_handle batchA downOracle readySession (by decide)).1
      (Or.inr (Or.inl (by decide)))⟩

/-- C2: a parse failure of one file is confined to that file: the load loop
completes over the whole batch, records an error message for exactly the
failing file, contributes no pages for it, and still extracts every page of
every other file. -/
theorem C2_parse_failure_confined (pre post : List UploadedFile)
    (nm e : String)
    (hpre : ∀ f ∈ pre, noUncaught f = true)
    (hpost : ∀ f ∈ post, noUncaught f = true) :
    loadLoop (pre ++ { name := nm, outcome := .loaderRaises e } :: post) =
      .ok (extractedText pre ++ extractedText post,
        pre.map traceOf ++
          traceOf { name := nm, outcome := .loaderRaises e } ::
            post.map traceOf) ∧
    (traceOf { name := nm, outcome := .loaderRaises e }).message =
      .error ("Error processing " ++ nm ++ ": " ++ e) := by
  constructor
  · have hall : ∀ f ∈ pre ++ { name := nm, outcome := .loaderRaises e } :: post,
        noUncaught f = true := by
      intro f hf
      rcases List.mem_append.mp hf with h | h
      · exact hpre f h
      · rcases List.mem_cons.mp h with h | h
        · subst h; rfl
        · exact hpost f h
    rw [loadLoop_ok _ hall]
    simp [extractedText, pagesOf]
  · rfl

/-- C2 witness: a corrupt file between two valid one-page files is reported
alone while both neighbours are fully processed. -/
theorem C2_parse_failure_confined_witness :
    (∀ f ∈ batchA, noUncaught f = true) ∧
    (∀ f ∈ batchB, noUncaught f = true) ∧
    (loadLoop (batchA ++ { name := "c.pdf", outcome := .loaderRaises "corrupt" }
        :: batchB) =
      .ok (extractedText batchA ++ extractedText batchB,
        batchA.map traceOf ++
          traceOf { name := "c.pdf", outcome := .loaderRaises "corrupt" } ::
            batchB.map traceOf) ∧
    (traceOf { name := "c.pdf", outcome := .loaderRaises "corrupt" }).message =
      .error ("Error processing " ++ "c.pdf" ++ ": " ++ "corrupt")) :=
  ⟨by decide, by decide,
    C2_parse_failure_confined batchA batchB "c.pdf" "corrupt"
      (by decide) (by decide)⟩

/-- C3: a successfully created vector store contains exactly the text units
extracted from the successfully parsed files, in file order then page order,
so its entry count is the total page count. -/
theorem C3_entry_count (files : List UploadedFile) (o : IngestOracle)
    (r : IngestResult) (vs : VectorStore)
    (h : process_uploaded_files files o = .ok r) (hs : r.store = some vs) :
    vs.documents = extractedText files ∧
    vs.documents.length = (files.map (fun f => (pagesOf f).length)).sum := by
  have hdocs : vs.documents = extractedText files := by
    by_cases hne : files = []
    · subst hne
      have hp : process_uploaded_files [] o =
          .ok { store := none, ops := [], messages := [], fileTraces := [] } := by
        simp [process_uploaded_files]
      rw [hp] at h
      simp only [Except.ok.injEq] at h
      rw [← h] at hs
      simp at hs
    · unfold process_uploaded_files at h
      rw [if_neg (by simpa using hne)] at h
      cases hl : loadLoop files with
      | error e => rw [hl] at h; simp at h
      | ok p =>
          obtain ⟨text, trs⟩ := p
          rw [hl] at h
          simp only [Except.ok.injEq] at h
          obtain ⟨htext, -⟩ := loadLoop_ok_val files text trs hl
          rw [← h] at hs
          obtain ⟨hvs, -, -, -, -⟩ := processAfterLoad_store_some _ _ _ _ hs
          rw [hvs, htext]
  exact ⟨hdocs, by rw [hdocs]; exact length_extractedText files⟩

/-- C3 witness: ingesting two valid one-page files yields a store with both
pages in order, two entries for two pages. -/
theorem C3_entry_count_witness :
    process_uploaded_files (batchA ++ batchB) (goodOracle 1000) =
      .ok resultAB ∧
    resultAB.store = some storeAB ∧
    (storeAB.documents = extractedText (batchA ++ batchB) ∧
      storeAB.documents.length =
        ((batchA ++ batchB).map (fun f => (pagesOf f).length)).sum) :=
  ⟨by rfl, by rfl,
    C3_entry_count (batchA ++ batchB) (goodOracle 1000) resultAB storeAB
      (by rfl) (by rfl)⟩

/-- C7: whether the loader succeeds or raises a caught parse error, the
staging temp file created for the file has been deleted when its processing
completes. -/
theorem C7_tmp_cleanup (f : UploadedFile) (tr : FileTrace)
    (h : processFile f = .ok tr) :
    tr.tmpCreated = true ∧ tr.tmpDeleted = true := by
  cases f with
  | mk nm oc =>
      cases oc with
      | readRaises e => simp [processFile] at h
      | writeRaises e => simp [processFile] at h
      | loaderRaises e =>
          simp only [processFile, Except.ok.injEq] at h
          rw [← h]
          exact ⟨rfl, rfl⟩
      | loaded pages =>
          simp only [processFile, Except.ok.injEq] at h
          rw [← h]
          exact ⟨rfl, rfl⟩

/-- C7 witness: a corrupt file's staging temp file is created and deleted. -/
theorem C7_tmp_cleanup_witness :
    processFile corruptFile = .ok (traceOf corruptFile) ∧
    ((traceOf corruptFile).tmpCreated = true ∧
      (traceOf corruptFile).tmpDeleted = true) :=
  ⟨by rfl, C7_tmp_cleanup corruptFile (traceOf corruptFile) (by rfl)⟩

/-- C4 counterexample: two distinct batches ingested within the same integer
second (same `int(time.time())`) receive the SAME collection name, refuting
collision resistance for repeated or concurrent same-second ingestions. -/
theorem C4_counterexample :
    batchA ≠ batchB ∧
    ingestedName batchA (goodOracle 1000) = some "RAG_PDF_1000" ∧
    ingestedName batchB (goodOracle 1000) = some "RAG_PDF_1000" :=
  ⟨by decide, by rfl, by rfl⟩

/-- C4 amended: the collection name is derived from `int(time.time())`, so
two ingestion batches whose integer timestamps differ receive distinct
names; batches within the same second share a name. -/
theorem C4_names_distinct_across_seconds (files1 files2 : List UploadedFile)
    (o1 o2 : IngestOracle) (r1 r2 : IngestResult) (vs1 vs2 : VectorStore)
    (h1 : process_uploaded_files files1 o1 = .ok r1)
    (hs1 : r1.store = some vs1)
    (h2 : process_uploaded_files files2 o2 = .ok r2)
    (hs2 : r2.store = some vs2)
    (ht : o1.timestamp ≠ o2.timestamp) :
    vs1.collectionName ≠ vs2.collectionName := by
  obtain ⟨hn1, -⟩ := process_ok_store files1 o1 r1 vs1 h1 hs1
  obtain ⟨hn2, -⟩ := process_ok_store files2 o2 r2 vs2 h2 hs2
  rw [hn1, hn2]
  intro heq
  exact ht (mkCollectionName_inj heq)

/-- C4 witness: ingestions at seconds 1000 and 1001 get distinct names. -/
theorem C4_names_distinct_across_seconds_witness :
    process_uploaded_files batchA (goodOracle 1000) = .ok resultA1000 ∧
    resultA1000.store = some storeA ∧
    process_uploaded_files batchB (goodOracle 1001) = .ok resultB1001 ∧
    resultB1001.store = some storeB1001 ∧
    (goodOracle 1000).timestamp ≠ (goodOracle 1001).timestamp ∧
    storeA.collectionName ≠ storeB1001.collectionName :=
  ⟨by rfl, by rfl, by rfl, by rfl, by decide,
    C4_names_distinct_across_seconds batchA batchB (goodOracle 1000)
      (goodOracle 1001) resultA1000 resultB1001 storeA storeB1001
      (by rfl) (by rfl) (by rfl) (by rfl) (by decide)⟩

/-- C5 counterexample: with `RETRIEVAL_K` set to `"5"` in the environment,
the spec-mandated cut-off is 5, but the code passes the hidden constant 3 to
the retriever — the configuration option is never consulted. -/
theorem C5_counterexample :
    specRetrievalK envK5 = 5 ∧
    (get_rag_response "q" storeA envK5 okChain).k = 3 ∧
    (get_rag_response "q" storeA envK5 okChain).k ≠ specRetrievalK envK5 :=
  ⟨by rfl, by rfl, by decide⟩

/-- C5 amended: the retrieval cut-off is the fixed constant 3
(`search_kwargs={"k": 3}`), independent of any configuration option. -/
theorem C5_k_is_hidden_constant (q : String) (vs : VectorStore)
    (getenv : String → Option String) (o : QueryOracle) :
    (get_rag_response q vs getenv o).k = 3 := by
  unfold get_rag_response
  cases o.chainResult <;> rfl

/-- C6: a failed query leaves the Ready session intact: `vector_store` and
`documents_loaded` are unchanged, so the same index remains queryable. -/
theorem C6_failed_query_preserves_ready (s : SessionState) (q : String)
    (getenv : String → Option String) (o : QueryOracle) (vs : VectorStore)
    (h1 : s.vector_store = some vs) (h2 : s.documents_loaded = true)
    (hfail : (get_rag_response q vs getenv o).response = none) :
    (mainQueryStep s q getenv o).vector_store = some vs ∧
    (mainQueryStep s q getenv o).documents_loaded = true := by
  simp [mainQueryStep, h1, hfail, h2]

/-- C6 witness: a chain failure against the Ready session leaves the store
and the loaded flag in place. -/
theorem C6_failed_query_preserves_ready_witness :
    readySession.vector_store = some storeA ∧
    readySession.documents_loaded = true ∧
    (get_rag_response "hi" storeA emptyEnv failChain).response = none ∧
    ((mainQueryStep readySession "hi" emptyEnv failChain).vector_store =
        some storeA ∧
      (mainQueryStep readySession "hi" emptyEnv failChain).documents_loaded =
        true) :=
  ⟨by rfl, by rfl, by rfl,
    C6_failed_query_preserves_ready readySession "hi" emptyEnv failChain
      storeA (by rfl) (by rfl) (by rfl)⟩

/-- C8: after a successful load with usable components, the first backend
operation is the best-effort deletion of the generated collection name, the
second is creation with vector size 384 and cosine distance, and the
deletion's outcome influences neither the returned value nor the messages. -/
theorem C8_delete_before_create (files : List UploadedFile) (o : IngestOracle)
    (hnu : ∀ f ∈ files, noUncaught f = true)
    (htext : extractedText files ≠ []) (hcomp : o.componentsOk = true) :
    ∃ r, process_uploaded_files files o = .ok r ∧
      (∃ created rest, r.ops =
        .deleteAttempt (mkCollectionName o.timestamp) o.deleteSucceeds ::
          .createAttempt (mkCollectionName o.timestamp) 384 .cosine created ::
            rest) ∧
      (∀ b : Bool, ∃ r2,
        process_uploaded_files files { o with deleteSucceeds := b } = .ok r2 ∧
        r2.store = r.store ∧ r2.messages = r.messages) := by
  have hne : files ≠ [] := by
    intro h
    subst h
    exact htext rfl
  refine ⟨_, process_eval files o hne hnu, ?_, ?_⟩
  · unfold processAfterLoad
    rw [if_neg (by simpa using htext), if_neg (by simp [hcomp])]
    cases hcf : o.createCollectionFails with
    | some e => exact ⟨false, [], rfl⟩
    | none =>
        cases hff : o.fromDocumentsFails with
        | some e => exact ⟨true, _, rfl⟩
        | none => exact ⟨true, _, rfl⟩
  · intro b
    refine ⟨_, process_eval files { o with deleteSucceeds := b } hne hnu, ?_⟩
    exact processAfterLoad_delete_irrelevant _ _ o b

/-- C8 witness: a one-file batch at second 1000 issues delete-then-create
with dimension 384 and cosine distance, independently of deletion outcome. -/
theorem C8_delete_before_create_witness :
    (∀ f ∈ batchA, noUncaught f = true) ∧
    extractedText batchA ≠ [] ∧
    (goodOracle 1000).componentsOk = true ∧
    (∃ r, process_uploaded_files batchA (goodOracle 1000) = .ok r ∧
      (∃ created rest, r.ops =
        .deleteAttempt (mkCollectionName (goodOracle 1000).timestamp)
            (goodOracle 1000).deleteSucceeds ::
          .createAttempt (mkCollectionName (goodOracle 1000).timestamp) 384
              .cosine created :: rest) ∧
      (∀ b : Bool, ∃ r2,
        process_uploaded_files batchA
            { goodOracle 1000 with deleteSucceeds := b } = .ok r2 ∧
        r2.store = r.store ∧ r2.messages = r.messages)) :=
  ⟨by decide, by decide, by rfl,
    C8_delete_before_create batchA (goodOracle 1000)
      (by decide) (by decide) (by rfl)⟩

/-- C9 counterexample: a failure while reading an uploaded file's bytes is
not caught — `process_uploaded_files` propagates the exception instead of
returning `None`. -/
theorem C9_counterexample :
    process_uploaded_files badBatch (goodOracle 1000) =
      .error "disk read failed" := by
  rfl

/-- C9 amended: when no staging read/write raises, `process_uploaded_files`
returns a value and surfaces an error message whenever it returns `None` on
a nonempty batch; `get_rag_response` always returns a value and surfaces an
error message on failure.  Staging-step exceptions, however, propagate past
the orchestrator boundary. -/
theorem C9_failures_surfaced (files : List UploadedFile) (o : IngestOracle)
    (hnu : ∀ f ∈ files, noUncaught f = true) :
    (∃ r, process_uploaded_files files o = .ok r ∧
      (files ≠ [] → r.store = none → ∃ m, UiMsg.error m ∈ r.messages)) ∧
    (∀ q vs getenv qo, (get_rag_response q vs getenv qo).response = none →
      ∃ m, (get_rag_response q vs getenv qo).errorMsg = some m) := by
  constructor
  · by_cases hne : files = []
    · subst hne
      refine ⟨{ store := none, ops := [], messages := [], fileTraces := [] },
        by simp [process_uploaded_files], fun h => absurd rfl h⟩
    · refine ⟨_, process_eval files o hne hnu, fun _ hstore => ?_⟩
      exact processAfterLoad_none_msg _ _ _ hstore
  · intro q vs getenv qo h
    obtain ⟨cr⟩ := qo
    cases cr with
    | ok p => simp [get_rag_response] at h
    | error e => exact ⟨_, rfl⟩

/-- C9 witness: a clean one-file batch returns a value, and a failed chain
call surfaces a message. -/
theorem C9_failures_surfaced_witness :
    (∀ f ∈ batchA, noUncaught f = true) ∧
    ((∃ r, process_uploaded_files batchA (goodOracle 1000) = .ok r ∧
      (batchA ≠ [] → r.store = none → ∃ m, UiMsg.error m ∈ r.messages)) ∧
    (∀ q vs getenv qo, (get_rag_response q vs getenv qo).response = none →
      ∃ m, (get_rag_response q vs getenv qo).errorMsg = some m)) :=
  ⟨by decide, C9_failures_surfaced batchA (goodOracle 1000) (by decide)⟩

/-- C10: the user turn is appended before the chain runs: a failed query
leaves the history with exactly one extra trailing user turn and no
assistant turn; an assistant turn is appended exactly when the chain returns
a non-empty response. -/
theorem C10_history_user_turn_first (s : SessionState) (q : String)
    (getenv : String → Option String) (o : QueryOracle) (vs : VectorStore)
    (h1 : s.vector_store = some vs) :
    ((get_rag_response q vs getenv o).response = none →
      (mainQueryStep s q getenv o).chat_history =
        s.chat_history ++ [("user", q)]) ∧
    (∀ r, (get_rag_response q vs getenv o).response = some r →
      (mainQueryStep s q getenv o).chat_history =
        if r = "" then s.chat_history ++ [("user", q)]
        else s.chat_history ++ [("user", q), ("assistant", r)]) := by
  constructor
  · intro hfail
    simp [mainQueryStep, h1, hfail]
  · intro r hr
    by_cases hre : r = "" <;> simp [mainQueryStep, h1, hr, hre]

/-- C10 witness: a failed chain call on the Ready session leaves exactly one
trailing user turn. -/
theorem C10_history_user_turn_first_witness :
    readySession.vector_store = some storeA ∧
    (((get_rag_response "hi" storeA emptyEnv failChain).response = none →
      (mainQueryStep readySession "hi" emptyEnv failChain).chat_history =
        readySession.chat_history ++ [("user", "hi")]) ∧
    (∀ r, (get_rag_response "hi" storeA emptyEnv failChain).response = some r →
      (mainQueryStep readySession "hi" emptyEnv failChain).chat_history =
        if r = "" then readySession.chat_history ++ [("user", "hi")]
        else readySession.chat_history ++ [("user", "hi"), ("assistant", r)])) :=
  ⟨by rfl,
    C10_history_user_turn_first readySession "hi" emptyEnv failChain storeA
      (by rfl)⟩

end InquiroPdf
